import Mathlib

/-!
Shallow embedding of the real-time translator core
(`src/hooks/useSpeechRecognition.js`, `src/hooks/useSpeechAndTranslation.js`,
`src/App.jsx`), together with theorems settling the behavioural claims about
the segmenter, the retrying request client, the translation task runner and
the playback scheduler.

JavaScript strings are modelled by Lean `String`; the JS method
`String.prototype.trim()` (strip leading/trailing whitespace) is modelled by
`jsTrim` below, defined over the character list of the string so that its
structural properties are provable.  JS `ref.current` mutable state is
modelled by explicit state records, and the browser event callbacks by a step
function over those records.
-/

namespace RealtimeTranslator

/-- One entry of the conversation log, as produced by `addLog` in
`App.jsx`: `addLog(type, text, source = '')` builds
`{type, text, source, timestamp}` (the wall-clock timestamp is not
modelled) and prepends it to the history, keeping at most 200 entries. -/
structure LogEntry where
  type : String
  text : String
  source : String
deriving Repr, DecidableEq

/-- Strip leading and trailing whitespace from a character list; the
character-level model of JS `String.prototype.trim()`. -/
def trimChars (l : List Char) : List Char :=
  ((l.dropWhile Char.isWhitespace).reverse.dropWhile Char.isWhitespace).reverse

/-- Model of JS `String.prototype.trim()`. -/
def jsTrim (s : String) : String :=
  ⟨trimChars s.data⟩

/-- Result of one call to `fetchWithRetry` in `useSpeechAndTranslation.js`,
for a fixed resolution of the network: `outcome` is `some (.ok v)` when an
attempt returned parsed JSON `v`, `some (.error e)` when the final attempt
threw and the error was rethrown, and `none` when the `for` loop body never
ran and the `async` function resolved with `undefined`; `waits` lists the
backoff delays awaited between attempts, `attempts` counts the attempts
actually issued, and `logs` the `addLog` calls made. -/
structure FetchResult (α : Type) where
  outcome : Option (Except String α)
  waits : List Nat
  attempts : Nat
  logs : List LogEntry

/-- The body of `fetchWithRetry`s `for (let i = 0; i < retries; i++)` loop.
`attempt i` is the outcome of the i-th try of
`fetch` + status check + `response.json()` (`.ok v`: the parsed body;
`.error e`: the thrown error message).  `fuel` is the number of loop
iterations still allowed by the guard (`retries - i`); the source tests
`i === retries - 1` to decide between rethrowing and backing off with
`delay * (2 ** i)`. -/
def fetchLoop (attempt : Nat → Except String α) (retries delay : Nat) :
    Nat → Nat → FetchResult α
  | _, 0 => ⟨none, [], 0, []⟩
  | i, fuel + 1 =>
    match attempt i with
    | .ok v => ⟨some (.ok v), [], 1, []⟩
    | .error e =>
      if i = retries - 1 then
        ⟨some (.error e), [], 1,
          [⟨"error", "API Call failed after " ++ toString retries ++ " attempts. " ++ e, ""⟩]⟩
      else
        let r := fetchLoop attempt retries delay (i + 1) fuel
        ⟨r.outcome, delay * 2 ^ i :: r.waits, r.attempts + 1, r.logs⟩

/-- `fetchWithRetry(url, payload, retries = 3, delay = 1000)` from
`useSpeechAndTranslation.js`, abstracted over the network (`attempt`).
`retries` is an integer so that non-positive values, for which the loop
guard `i < retries` fails at once, are expressible. -/
def fetchWithRetry (attempt : Nat → Except String α) (retries : Int) (delay : Nat) :
    FetchResult α :=
  fetchLoop attempt retries.toNat delay 0 retries.toNat

/-- C4: with `maxAttempts = 3` and `baseDelay = 1`, if the request fails on
the first two attempts and succeeds on the third, `fetchWithRetry` returns
the successful response after exactly two delayed retries with waits
`1 * 2 ^ 0` and `1 * 2 ^ 1` (strictly increasing); if all three attempts
fail, it fails with the last error after exactly three attempts (no further
attempt is issued) and the same two waits. -/
theorem fetchWithRetry_backoff_c4 {α : Type} (attempt : Nat → Except String α)
    (e0 e1 : String) (h0 : attempt 0 = .error e0) (h1 : attempt 1 = .error e1) :
    (∀ v : α, attempt 2 = .ok v →
      fetchWithRetry attempt 3 1 = ⟨some (.ok v), [1 * 2 ^ 0, 1 * 2 ^ 1], 3, []⟩)
    ∧ (∀ e2 : String, attempt 2 = .error e2 →
      fetchWithRetry attempt 3 1 =
        ⟨some (.error e2), [1 * 2 ^ 0, 1 * 2 ^ 1], 3,
          [⟨"error", "API Call failed after 3 attempts. " ++ e2, ""⟩]⟩) := by
  constructor
  · intro v h2
    show fetchLoop attempt 3 1 0 3 = _
    norm_num [fetchLoop, h0, h1, h2]
  · intro e2 h2
    show fetchLoop attempt 3 1 0 3 = _
    norm_num [fetchLoop, h0, h1, h2]
    rfl

/-- Witness for C4 at a concrete attempt function. -/
theorem fetchWithRetry_backoff_c4_witness :
    fetchWithRetry (fun i => if i = 0 then .error "a" else if i = 1 then .error "b" else .ok 7)
        3 1 = ⟨some (.ok 7), [1 * 2 ^ 0, 1 * 2 ^ 1], 3, []⟩ :=
  (fetchWithRetry_backoff_c4 _ "a" "b" rfl rfl).1 7 rfl

/-- C10: calling `fetchWithRetry` with `retries = 0` (or any non-positive
value) never runs the loop body: no attempt is issued, no wait happens, and
the call resolves with `undefined` (outcome `none`) rather than failing. -/
theorem fetchWithRetry_zero_retries_c10 {α : Type} (attempt : Nat → Except String α)
    (retries : Int) (delay : Nat) (h : retries ≤ 0) :
    fetchWithRetry attempt retries delay = ⟨none, [], 0, []⟩ := by
  unfold fetchWithRetry
  rw [Int.toNat_of_nonpos h]
  rfl

/-- Witness for C10 at `retries = 0`. -/
theorem fetchWithRetry_zero_retries_c10_witness :
    fetchWithRetry (fun _ => (.error "down" : Except String Nat)) 0 1000 =
      ⟨none, [], 0, []⟩ :=
  fetchWithRetry_zero_retries_c10 _ 0 1000 (by decide)

theorem head?_dropWhile_false (p : Char → Bool) (l : List Char) (a : Char)
    (h : (l.dropWhile p).head? = some a) : p a = false := by
  have hd := List.head?_dropWhile_not p l
  rw [h] at hd
  exact hd

theorem dropWhile_eq_self_of_head (p : Char → Bool) (l : List Char)
    (h : ∀ a, l.head? = some a → p a = false) : l.dropWhile p = l := by
  cases l with
  | nil => rfl
  | cons a t =>
    rw [List.dropWhile_cons, if_neg]
    simp [h a rfl]

theorem getLast?_dropWhile (p : Char → Bool) (l : List Char) :
    l.dropWhile p = [] ∨ (l.dropWhile p).getLast? = l.getLast? := by
  induction l with
  | nil => exact .inl rfl
  | cons a t ih =>
    rw [List.dropWhile_cons]
    by_cases hpa : p a = true
    · rw [if_pos hpa]
      by_cases hd : List.dropWhile p t = []
      · exact .inl hd
      · right
        rcases ih with h | h
        · exact absurd h hd
        · rw [h]
          cases t with
          | nil => rw [List.dropWhile_nil] at hd; exact absurd rfl hd
          | cons b u => rw [List.getLast?_cons_cons]
    · rw [if_neg hpa]
      exact .inr rfl

/-- The trimmed character list has no whitespace at either end. -/
theorem trimChars_ends (l : List Char) :
    (∀ a, (trimChars l).head? = some a → a.isWhitespace = false)
    ∧ (∀ a, (trimChars l).getLast? = some a → a.isWhitespace = false) := by
  constructor
  · intro a ha
    unfold trimChars at ha
    rw [List.head?_reverse] at ha
    rcases getLast?_dropWhile Char.isWhitespace (l.dropWhile Char.isWhitespace).reverse with h | h
    · rw [h] at ha; cases ha
    · rw [h, List.getLast?_reverse] at ha
      exact head?_dropWhile_false _ _ _ ha
  · intro a ha
    unfold trimChars at ha
    rw [List.getLast?_reverse] at ha
    exact head?_dropWhile_false _ _ _ ha

/-- Appending a single trailing space to an already-trimmed list and
trimming again gives the trimmed list back. -/
theorem trimChars_append_space (l : List Char) :
    trimChars (trimChars l ++ [' ']) = trimChars l := by
  rcases hm : trimChars l with _ | ⟨a, t⟩
  · rfl
  · have hends := trimChars_ends l
    have ha : a.isWhitespace = false := hends.1 a (by rw [hm]; rfl)
    have hrev : ∀ b, ((a :: t).reverse).head? = some b → Char.isWhitespace b = false := by
      intro b hb
      rw [List.head?_reverse] at hb
      exact hends.2 b (by rw [hm]; exact hb)
    have h1 : List.dropWhile Char.isWhitespace ((a :: t) ++ [' ']) = (a :: t) ++ [' '] := by
      rw [List.cons_append, List.dropWhile_cons, if_neg]
      simp [ha]
    have h2 : List.dropWhile Char.isWhitespace ((a :: t).reverse) = (a :: t).reverse :=
      dropWhile_eq_self_of_head _ _ hrev
    show trimChars ((a :: t) ++ [' ']) = a :: t
    unfold trimChars
    rw [h1]
    rw [show ((a :: t) ++ [' ']).reverse = ' ' :: (a :: t).reverse by
      rw [List.reverse_append]; rfl]
    rw [List.dropWhile_cons, if_pos (by decide), h2, List.reverse_reverse]

/-- A list holding at least one non-whitespace character does not trim to
the empty list. -/
theorem trimChars_ne_nil (l : List Char) (a : Char) (ha : a ∈ l)
    (hws : a.isWhitespace = false) : trimChars l ≠ [] := by
  unfold trimChars
  intro h
  rw [List.reverse_eq_nil_iff, List.dropWhile_eq_nil_iff] at h
  rcases he : List.dropWhile Char.isWhitespace l with _ | ⟨b, u⟩
  · rw [List.dropWhile_eq_nil_iff] at he
    have := he a ha
    rw [hws] at this
    cases this
  · have hb : Char.isWhitespace b = false := head?_dropWhile_false _ l b (by rw [he]; rfl)
    have hmem : b ∈ (List.dropWhile Char.isWhitespace l).reverse := by
      rw [he]
      exact List.mem_reverse.mpr (List.mem_cons_self b u)
    have := h b hmem
    rw [hb] at this
    cases this

/-- If a list trims to a nonempty result, it holds a non-whitespace
character. -/
theorem trimChars_ne_nil_exists (l : List Char) (h : trimChars l ≠ []) :
    ∃ a ∈ l, a.isWhitespace = false := by
  by_contra hall
  push_neg at hall
  simp only [Bool.not_eq_false] at hall
  apply h
  unfold trimChars
  rw [List.dropWhile_eq_nil_iff.mpr hall]
  rfl

/-- String-level corollary of `trimChars_append_space`: re-trimming an
already-trimmed string with one trailing space appended gives it back. -/
theorem jsTrim_append_space (s : String) :
    jsTrim (jsTrim s ++ " ") = jsTrim s := by
  unfold jsTrim
  rw [String.ext_iff]
  show trimChars (String.data (⟨trimChars s.data⟩ ++ " ")) = trimChars s.data
  rw [String.data_append]
  exact trimChars_append_space s.data

/-- An element of `playbackQueueRef.current` in
`useSpeechAndTranslation.js`: `{ seq, translatedText, audioUrl }`. -/
structure PlayItem where
  seq : Nat
  translatedText : String
  audioUrl : String
deriving Repr, DecidableEq

/-- The playback scheduler state: `playbackQueueRef.current` and
`isPlayingRef.current`. -/
structure PlayerState where
  queue : List PlayItem
  isPlaying : Bool
deriving Repr, DecidableEq

/-- `playNext` from `useSpeechAndTranslation.js`: if something is playing
or the queue is empty, return at once; otherwise sort the queue ascending
by `seq` (JS `sort((a, b) => a.seq - b.seq)`, a stable ascending sort,
modelled by `List.mergeSort`), `shift()` the first item, mark the player
busy and hand the item to the audio sink.  The returned `Option PlayItem`
is the item released to the sink, if any.  The `match` on the sorted list
mirrors the source's `if (!next)` guard after `shift()`. -/
def playNext (s : PlayerState) : PlayerState × Option PlayItem :=
  if s.isPlaying ∨ s.queue = [] then (s, none)
  else
    match s.queue.mergeSort (fun a b => a.seq ≤ b.seq) with
    | [] => ({ s with isPlaying := false }, none)
    | next :: rest => (⟨rest, true⟩, some next)

/-- C1: an invocation of `playNext` while nothing is playing and the queue
is nonempty releases exactly one enqueued item, one whose `sequence` is
lowest among all items currently enqueued (the remaining items stay
enqueued); and while `isPlaying` is true `playNext` returns immediately,
releasing nothing and changing nothing. -/
theorem playNext_releases_min_c1 (s : PlayerState) :
    (s.isPlaying = true → playNext s = (s, none))
    ∧ (s.isPlaying = false → s.queue = [] → playNext s = (s, none))
    ∧ (s.isPlaying = false → s.queue ≠ [] →
        ∃ next rest, playNext s = (⟨rest, true⟩, some next)
          ∧ next ∈ s.queue
          ∧ (∀ x ∈ s.queue, next.seq ≤ x.seq)
          ∧ (next :: rest).Perm s.queue) := by
  refine ⟨fun h => by simp [playNext, h], fun h hq => by simp [playNext, h, hq], ?_⟩
  intro h hq
  have hperm := List.mergeSort_perm s.queue (fun a b => a.seq ≤ b.seq)
  have hsorted :=
    @List.sorted_mergeSort PlayItem (fun a b => decide (a.seq ≤ b.seq))
      (fun a b c hab hbc => by
        simp only [decide_eq_true_eq] at *
        exact Nat.le_trans hab hbc)
      (fun a b => by
        simpa using Nat.le_total a.seq b.seq)
      s.queue
  rcases hms : s.queue.mergeSort (fun a b => a.seq ≤ b.seq) with _ | ⟨next, rest⟩
  · rw [hms] at hperm
    exact absurd (List.perm_nil.mp hperm.symm) hq
  · refine ⟨next, rest, ?_, ?_, ?_, ?_⟩
    · simp only [playNext, h, hq]
      rw [if_neg (by simp [hq]), hms]
    · rw [hms] at hperm
      exact hperm.mem_iff.mp (List.mem_cons_self next rest)
    · intro x hx
      rw [hms] at hperm hsorted
      rcases List.mem_cons.mp (hperm.mem_iff.mpr hx) with hx1 | hx2
      · subst hx1
        exact Nat.le_refl _
      · have := List.rel_of_pairwise_cons hsorted hx2
        simpa using this
    · rw [hms] at hperm
      exact hperm

/-- Shared computation lemma: with three failing attempts, `fetchWithRetry`
with `retries = 3` rethrows the last error after two backoff waits and one
terminal-failure log entry. -/
theorem fetchWithRetry_three_errors (attempt : Nat → Except String α)
    (e0 e1 e2 : String) (h0 : attempt 0 = .error e0) (h1 : attempt 1 = .error e1)
    (h2 : attempt 2 = .error e2) (delay : Nat) :
    fetchWithRetry attempt 3 delay =
      ⟨some (.error e2), [delay * 2 ^ 0, delay * 2 ^ 1], 3,
        [⟨"error", "API Call failed after 3 attempts. " ++ e2, ""⟩]⟩ := by
  show fetchLoop attempt 3 delay 0 3 = _
  norm_num [fetchLoop, h0, h1, h2]
  rfl

/-- The app state seen by `translateAndSpeak`: the floating display text and
conversation log owned by `App.jsx`, plus the playback scheduler state
(`playbackQueueRef` / `isPlayingRef`) owned by the hook. -/
structure AppState where
  floatingText : String
  log : List LogEntry
  player : PlayerState
deriving Repr, DecidableEq

/-- `addLog` from `App.jsx`: prepend the entry and keep at most 200. -/
def addLog (s : AppState) (type text source : String) : AppState :=
  { s with log := (⟨type, text, source⟩ :: s.log).take 200 }

/-- Model of
`textResult?.candidates?.[0]?.content?.parts?.[0]?.text?.trim() || 'Translation Failed.'`:
the response JSON is abstracted to the optional string found at that path
(`none` when any link of the optional chain is missing); an absent or
all-whitespace text falls back to the literal. -/
def extractTranslated (t : Option String) : String :=
  match t with
  | none => "Translation Failed."
  | some t0 => if jsTrim t0 = "" then "Translation Failed." else jsTrim t0

/-- The `try` block of `translateAndSpeak` in `useSpeechAndTranslation.js`,
abstracted over the network (`attempt` feeds `fetchWithRetry`).  A thrown
error carries the state reached before the throw, since the JS `catch`
continues from that state.  The speech-synthesis and enqueue stage
(steps 2 and 3 of the source) is commented out in the source, so after the
translation response only the display text and the log are updated. -/
def translateAndSpeakTry (targetLang : String) (attempt : Nat → Except String (Option String))
    (sourceText : String) (seq : Nat) (s : AppState) : Except (String × AppState) AppState :=
  if sourceText = "" ∨ (jsTrim sourceText).length < 2 then
    .ok (addLog s "info" "Skipped tiny or empty chunk." "")
  else
    let s1 := { s with floatingText := "Translating..." }
    let fr := fetchWithRetry attempt 3 1000
    let s2 := fr.logs.foldl (fun st l => addLog st l.type l.text l.source) s1
    match fr.outcome with
    | some (.error e) => .error (e, s2)
    | some (.ok r) =>
      let translatedText := extractTranslated r
      let s3 := { s2 with floatingText := translatedText }
      .ok (addLog s3 "translation-text" translatedText
            ("Translated to " ++ targetLang ++ " (seq " ++ toString seq ++ ")"))
    | none =>
      let translatedText := extractTranslated none
      let s3 := { s2 with floatingText := translatedText }
      .ok (addLog s3 "translation-text" translatedText
            ("Translated to " ++ targetLang ++ " (seq " ++ toString seq ++ ")"))

/-- `translateAndSpeak(sourceText, seq = 0)`: the `try` body wrapped in the
`catch` handler, which logs the error with the segment sequence number and
returns normally, so the function is total on every network outcome. -/
def translateAndSpeak (targetLang : String) (attempt : Nat → Except String (Option String))
    (sourceText : String) (seq : Nat) (s : AppState) : AppState :=
  match translateAndSpeakTry targetLang attempt sourceText seq s with
  | .ok s1 => s1
  | .error (msg, s1) =>
    addLog { s1 with floatingText := "API Process Error. Check log." }
      "error" ("Translation/TTS error (seq " ++ toString seq ++ "): " ++ msg) ""

theorem foldl_addLog_player (ls : List LogEntry) (s : AppState) :
    (ls.foldl (fun st l => addLog st l.type l.text l.source) s).player = s.player := by
  induction ls generalizing s with
  | nil => rfl
  | cons l t ih =>
    rw [List.foldl_cons, ih]
    rfl

/-- `translateAndSpeak` never changes the playback scheduler state. -/
theorem translateAndSpeak_player (targetLang : String)
    (attempt : Nat → Except String (Option String)) (sourceText : String) (seq : Nat)
    (s : AppState) :
    (translateAndSpeak targetLang attempt sourceText seq s).player = s.player := by
  have hfold := foldl_addLog_player (fetchWithRetry attempt 3 1000).logs
      { s with floatingText := "Translating..." }
  unfold translateAndSpeak translateAndSpeakTry
  by_cases h : sourceText = "" ∨ (jsTrim sourceText).length < 2
  · rw [if_pos h]
    rfl
  · rw [if_neg h]
    rcases ho : (fetchWithRetry attempt 3 1000).outcome with _ | r
    · simp only [ho]
      exact hfold
    · cases r with
      | ok v =>
        simp only [ho]
        exact hfold
      | error e =>
        simp only [ho]
        exact hfold

/-- An interleaving of pipeline completions: a `translateAndSpeak` call
finishing with some network outcome, or an invocation of `playNext`. -/
inductive AppEvent where
  | translate (attempt : Nat → Except String (Option String)) (sourceText : String) (seq : Nat)
  | tryPlay

/-- Run a sequence of pipeline events, collecting every item the playback
scheduler releases to the audio sink. -/
def runApp (targetLang : String) (s : AppState) : List AppEvent → AppState × List PlayItem
  | [] => (s, [])
  | .translate attempt sourceText seq :: evs =>
    runApp targetLang (translateAndSpeak targetLang attempt sourceText seq s) evs
  | .tryPlay :: evs =>
    let p := playNext s.player
    let r := runApp targetLang { s with player := p.1 } evs
    (r.1, p.2.toList ++ r.2)

/-- C2: `translateAndSpeak` never pushes an item onto the playback queue
and never sets `isPlaying` (the enqueue stage is absent from the live
code path); consequently, over any whole execution interleaving
`translateAndSpeak` completions with `playNext` invocations from an empty
queue with nothing playing, the queue stays empty, `isPlaying` stays
false, and `playNext` never releases an item. -/
theorem translate_never_enqueues_c2 (targetLang : String) :
    (∀ attempt sourceText seq s,
      (translateAndSpeak targetLang attempt sourceText seq s).player = s.player)
    ∧ ∀ evs s, s.player = ⟨[], false⟩ →
        (runApp targetLang s evs).1.player = ⟨[], false⟩
        ∧ (runApp targetLang s evs).2 = [] := by
  refine ⟨fun attempt sourceText seq s => translateAndSpeak_player _ _ _ _ _, ?_⟩
  intro evs
  induction evs with
  | nil =>
    intro s hs
    exact ⟨hs, rfl⟩
  | cons e t ih =>
    intro s hs
    cases e with
    | translate attempt sourceText seq =>
      exact ih _ (by rw [translateAndSpeak_player]; exact hs)
    | tryPlay =>
      have hp : playNext s.player = (s.player, none) := by
        rw [hs]
        rfl
      simp only [runApp, hp]
      have := ih { s with player := s.player } hs
      exact ⟨this.1, by simpa using this.2⟩

/-- Witness for C2 on a concrete two-event execution. -/
theorem translate_never_enqueues_c2_witness :
    (runApp "es" ⟨"", [], ⟨[], false⟩⟩
        [.translate (fun _ => .ok (some "hola")) "hello" 1, .tryPlay]).1.player = ⟨[], false⟩
    ∧ (runApp "es" ⟨"", [], ⟨[], false⟩⟩
        [.translate (fun _ => .ok (some "hola")) "hello" 1, .tryPlay]).2 = [] :=
  (translate_never_enqueues_c2 "es").2 _ _ rfl

/-- C8: when the translation request terminally fails (all three attempts
of the retry client fail), `translateAndSpeak` returns normally — the
`catch` absorbs the rethrown error, so its promise never rejects — with
the failure logged as the newest log entry carrying the segment's
sequence number, and the playback state untouched, so the segment is
dropped without aborting the session or blocking later segments. -/
theorem translate_failure_contained_c8 (targetLang : String)
    (attempt : Nat → Except String (Option String)) (sourceText : String) (seq : Nat)
    (s : AppState) (hlen : 2 ≤ (jsTrim sourceText).length)
    (e0 e1 e2 : String) (h0 : attempt 0 = .error e0) (h1 : attempt 1 = .error e1)
    (h2 : attempt 2 = .error e2) :
    (translateAndSpeak targetLang attempt sourceText seq s).player = s.player
    ∧ (translateAndSpeak targetLang attempt sourceText seq s).floatingText =
        "API Process Error. Check log."
    ∧ (translateAndSpeak targetLang attempt sourceText seq s).log.head? =
        some ⟨"error", "Translation/TTS error (seq " ++ toString seq ++ "): " ++ e2, ""⟩ := by
  have hne : ¬(sourceText = "" ∨ (jsTrim sourceText).length < 2) := by
    rintro (h | h)
    · subst h
      exact absurd hlen (by decide)
    · omega
  have hfr := fetchWithRetry_three_errors attempt e0 e1 e2 h0 h1 h2 1000
  refine ⟨translateAndSpeak_player _ _ _ _ _, ?_, ?_⟩
  · unfold translateAndSpeak translateAndSpeakTry
    rw [if_neg hne]
    simp only [hfr]
    rfl
  · unfold translateAndSpeak translateAndSpeakTry
    rw [if_neg hne]
    simp only [hfr]
    simp [addLog]

/-- Witness for C8 at a concrete failing network. -/
theorem translate_failure_contained_c8_witness :
    2 ≤ (jsTrim "hello").length
    ∧ ((translateAndSpeak "es" (fun _ => .error "boom") "hello" 4
          ⟨"x", [], ⟨[], false⟩⟩).player = (⟨"x", [], ⟨[], false⟩⟩ : AppState).player
        ∧ (translateAndSpeak "es" (fun _ => .error "boom") "hello" 4
            ⟨"x", [], ⟨[], false⟩⟩).floatingText = "API Process Error. Check log."
        ∧ (translateAndSpeak "es" (fun _ => .error "boom") "hello" 4
            ⟨"x", [], ⟨[], false⟩⟩).log.head? =
          some ⟨"error", "Translation/TTS error (seq " ++ toString 4 ++ "): " ++ "boom", ""⟩) :=
  ⟨by decide,
    translate_failure_contained_c8 "es" (fun _ => .error "boom") "hello" 4
      ⟨"x", [], ⟨[], false⟩⟩ (by decide) "boom" "boom" "boom" rfl rfl rfl⟩

/-- Witness for C1 at a concrete queue enqueued out of sequence order. -/
theorem playNext_releases_min_c1_witness :
    ∃ next rest,
      playNext ⟨[⟨2, "dos", "u2"⟩, ⟨1, "uno", "u1"⟩], false⟩ = (⟨rest, true⟩, some next)
      ∧ next ∈ (⟨[⟨2, "dos", "u2"⟩, ⟨1, "uno", "u1"⟩], false⟩ : PlayerState).queue
      ∧ (∀ x ∈ (⟨[⟨2, "dos", "u2"⟩, ⟨1, "uno", "u1"⟩], false⟩ : PlayerState).queue,
          next.seq ≤ x.seq)
      ∧ (next :: rest).Perm
          (⟨[⟨2, "dos", "u2"⟩, ⟨1, "uno", "u1"⟩], false⟩ : PlayerState).queue :=
  (playNext_releases_min_c1 ⟨[⟨2, "dos", "u2"⟩, ⟨1, "uno", "u1"⟩], false⟩).2.2 rfl
    (by simp)

/-- One emitted segment: the pair `(text, seq)` passed to
`onFinalTranscript` by `flushBuffer`. -/
structure Segment where
  sequence : Nat
  text : String
deriving Repr, DecidableEq

/-- The mutable state of `useSpeechRecognition.js`: the two text
accumulators (`committedRef`, `pendingInterimRef`), the two timer handles
(modelled as armed/not armed), the sequence counter (`seqRef`), the
duplicate-suppression register (`lastSentRef`), the listening flag and the
two display strings. -/
structure SRState where
  committed : String
  interim : String
  chunkTimer : Bool
  streamingOn : Bool
  seq : Nat
  lastSent : String
  isListening : Bool
  floatingText : String
  statusText : String
deriving Repr, DecidableEq

/-- Outcome of one `flushBuffer()` call: the new state, the segment handed
to `onFinalTranscript` (if any), and the `addLog` calls made. -/
structure FlushResult where
  state : SRState
  emitted : Option Segment
  logs : List LogEntry
deriving Repr, DecidableEq

/-- `flushBuffer` from `useSpeechRecognition.js`: clear the pause timer,
compute `text = (committed + ' ' + interim).trim()`; if `text` is empty,
reset the accumulators and return; if `lastSent` is nonempty and equal to
`text`, reset the accumulators without emitting (duplicate suppression);
otherwise advance the sequence counter, log the input, emit
`(text, seq)`, record `lastSent = text` and reset the accumulators. -/
def flushBuffer (sourceLang : String) (s : SRState) : FlushResult :=
  let s0 := { s with chunkTimer := false }
  let text := jsTrim (s0.committed ++ " " ++ s0.interim)
  if text = "" then
    ⟨{ s0 with committed := "", interim := "" }, none, []⟩
  else if s0.lastSent ≠ "" ∧ s0.lastSent = text then
    ⟨{ s0 with
        committed := "", interim := "", lastSent := text,
        floatingText := "Thinking..." }, none, []⟩
  else
    ⟨{ s0 with
        seq := s0.seq + 1, lastSent := text, committed := "", interim := "",
        floatingText := "Thinking..." },
      some ⟨s0.seq + 1, text⟩,
      [⟨"input", text, "Spoken in " ++ sourceLang⟩]⟩

/-- An event driving the recognition hook: an `onresult` batch (each item
a transcript with its `isFinal` flag), expiry of the pause timer, a tick
of the streaming interval, `onerror`, `onend`, `onstart`, or a click of
the toggle button. -/
inductive SREvent where
  | result (results : List (String × Bool))
  | pauseTimer
  | streamingTimer
  | errorEvt (err : String)
  | endEvt
  | startEvt
  | toggle
deriving Repr, DecidableEq

/-- Outcome of handling one `SREvent`: the new state, the segments emitted
(at most one), the log entries added, and whether `recognition.stop()`
was requested. -/
structure SRStep where
  state : SRState
  emitted : List Segment
  logs : List LogEntry
  stopRequested : Bool
deriving Repr, DecidableEq

/-- The transcript-building loop at the top of `recognition.onresult`:
fold over the event's results, appending `transcript + ' '` to the final
accumulator when `isFinal` and to the interim accumulator otherwise.
Returns `(finalTranscript, interimTranscript)`. -/
def buildTranscripts (results : List (String × Bool)) : String × String :=
  results.foldl
    (fun acc r => if r.2 then (acc.1 ++ r.1 ++ " ", acc.2) else (acc.1, acc.2 ++ r.1 ++ " "))
    ("", "")

/-- View an optional emitted segment as a list of emissions. -/
def segList : Option Segment → List Segment
  | none => []
  | some seg => [seg]

/-- One step of the recognition hook, one handler per event, each
translated from `useSpeechRecognition.js`:
`onresult` (final fragments append to `committed`, clear the interim and
flush immediately; interim fragments replace the pending interim, update
the display and re-arm the pause timer), the two timer callbacks (each a
plain `flushBuffer()` call, possible only while the corresponding timer
is armed), `onerror` (flush and stop the streaming interval always, and
additionally stop the session for errors other than `no-speech`),
`onend` (restart when still listening, otherwise drain and stop the
interval), `onstart`, and `toggleListening`. -/
def stepSR (sourceLang : String) (s : SRState) : SREvent → SRStep
  | .result results =>
    let ts := buildTranscripts results
    if 0 < (jsTrim ts.1).length then
      let f := flushBuffer sourceLang
        { s with committed := jsTrim (s.committed ++ " " ++ ts.1), interim := "" }
      ⟨f.state, segList f.emitted, f.logs, false⟩
    else if 0 < (jsTrim ts.2).length then
      ⟨{ s with
          interim := jsTrim ts.2,
          floatingText :=
            (if s.committed ≠ "" then s.committed ++ " " else "") ++ jsTrim ts.2,
          chunkTimer := true }, [], [], false⟩
    else
      ⟨{ s with floatingText := "Thinking..." }, [], [], false⟩
  | .pauseTimer =>
    if s.chunkTimer then
      let f := flushBuffer sourceLang s
      ⟨f.state, segList f.emitted, f.logs, false⟩
    else ⟨s, [], [], false⟩
  | .streamingTimer =>
    if s.streamingOn then
      let f := flushBuffer sourceLang s
      ⟨f.state, segList f.emitted, f.logs, false⟩
    else ⟨s, [], [], false⟩
  | .errorEvt err =>
    let f := flushBuffer sourceLang s
    if err ≠ "no-speech" then
      ⟨{ f.state with
          streamingOn := false, isListening := false,
          statusText := "Error occurred. Click to retry.",
          floatingText := "Error during speech input." },
        segList f.emitted,
        f.logs ++ [⟨"error", "Microphone Error: " ++ err ++ ". Please check permissions.", ""⟩],
        true⟩
    else
      ⟨{ f.state with streamingOn := false }, segList f.emitted, f.logs, false⟩
  | .endEvt =>
    if s.isListening then ⟨s, [], [], false⟩
    else
      let f := flushBuffer sourceLang
        { s with statusText := "Listening stopped. Click to start." }
      ⟨{ f.state with
          streamingOn := false,
          floatingText := "Ready for the next sentence..." },
        segList f.emitted, f.logs, false⟩
  | .startEvt =>
    ⟨{ s with
        isListening := true,
        statusText := "Listening in " ++ sourceLang ++ "... Speak now.",
        floatingText := "Listening...", streamingOn := true }, [], [], false⟩
  | .toggle =>
    if s.isListening then
      let f := flushBuffer sourceLang { s with isListening := false }
      ⟨{ f.state with streamingOn := false }, segList f.emitted, f.logs, true⟩
    else
      ⟨{ s with isListening := true }, [], [], false⟩

/-- Run a whole session: fold `stepSR` over an event list, collecting the
emitted segments in order. -/
def runSR (sourceLang : String) (s : SRState) : List SREvent → SRState × List Segment
  | [] => (s, [])
  | e :: evs =>
    let r := stepSR sourceLang s e
    let rest := runSR sourceLang r.state evs
    (rest.1, r.emitted ++ rest.2)

/-- C9: flushing when the combined accumulated text trims to empty emits
no segment, makes no downstream call and no log entry, leaves the
sequence counter untouched, and leaves both accumulators empty. -/
theorem flush_empty_noop_c9 (sourceLang : String) (s : SRState)
    (h : jsTrim (s.committed ++ " " ++ s.interim) = "") :
    flushBuffer sourceLang s =
      ⟨{ s with chunkTimer := false, committed := "", interim := "" }, none, []⟩ := by
  simp [flushBuffer, h]

/-- Witness for C9 on a whitespace-only buffer. -/
theorem flush_empty_noop_c9_witness :
    jsTrim ("" ++ " " ++ " ") = ""
    ∧ flushBuffer "en-US" ⟨"", " ", true, true, 5, "x", true, "f", "st"⟩ =
      ⟨⟨"", "", false, true, 5, "x", true, "f", "st"⟩, none, []⟩ :=
  ⟨rfl, flush_empty_noop_c9 "en-US" ⟨"", " ", true, true, 5, "x", true, "f", "st"⟩ rfl⟩

/-- C5: flushing when the combined accumulated text is nonempty but equal
to the last emitted text emits nothing and does not advance the sequence
counter, yet resets both accumulators (and refreshes the display). -/
theorem flush_duplicate_suppressed_c5 (sourceLang : String) (s : SRState)
    (hne : jsTrim (s.committed ++ " " ++ s.interim) ≠ "")
    (heq : jsTrim (s.committed ++ " " ++ s.interim) = s.lastSent) :
    flushBuffer sourceLang s =
      ⟨{ s with
          chunkTimer := false, committed := "", interim := "",
          lastSent := jsTrim (s.committed ++ " " ++ s.interim),
          floatingText := "Thinking..." }, none, []⟩ := by
  have h1 : s.lastSent ≠ "" := heq ▸ hne
  have h2 : s.lastSent = jsTrim (s.committed ++ " " ++ s.interim) := heq.symm
  simp [flushBuffer, hne, h1, h2]

/-- Witness for C5 on a buffer equal to the previously emitted text. -/
theorem flush_duplicate_suppressed_c5_witness :
    jsTrim ("hello" ++ " " ++ "") ≠ ""
    ∧ jsTrim ("hello" ++ " " ++ "") = "hello"
    ∧ flushBuffer "en-US" ⟨"hello", "", true, true, 5, "hello", true, "f", "st"⟩ =
      ⟨⟨"", "", false, true, 5, jsTrim ("hello" ++ " " ++ ""), true, "Thinking...", "st"⟩,
        none, []⟩ :=
  ⟨by decide, by decide,
    flush_duplicate_suppressed_c5 "en-US" ⟨"hello", "", true, true, 5, "hello", true, "f", "st"⟩
      (by decide) (by decide)⟩

/-- Each `flushBuffer` call either emits nothing and keeps the sequence
counter, or emits exactly the next sequence number and advances the
counter by one. -/
theorem flushBuffer_seq (sourceLang : String) (s : SRState) :
    ((flushBuffer sourceLang s).emitted = none
      ∧ (flushBuffer sourceLang s).state.seq = s.seq)
    ∨ ((flushBuffer sourceLang s).emitted =
          some ⟨s.seq + 1, jsTrim (s.committed ++ " " ++ s.interim)⟩
        ∧ (flushBuffer sourceLang s).state.seq = s.seq + 1) := by
  simp only [flushBuffer]
  split_ifs
  · exact .inl ⟨rfl, rfl⟩
  · exact .inl ⟨rfl, rfl⟩
  · exact .inr ⟨rfl, rfl⟩

/-- Each recognition event either emits nothing and preserves the
sequence counter, or emits exactly one segment carrying the next sequence
number and advances the counter by one. -/
theorem stepSR_seq (sourceLang : String) (s : SRState) (e : SREvent) :
    ((stepSR sourceLang s e).emitted = [] ∧ (stepSR sourceLang s e).state.seq = s.seq)
    ∨ (∃ t, (stepSR sourceLang s e).emitted = [⟨s.seq + 1, t⟩]
        ∧ (stepSR sourceLang s e).state.seq = s.seq + 1) := by
  cases e with
  | result results =>
    simp only [stepSR]
    split_ifs with h1 h2 h3
    · rcases flushBuffer_seq sourceLang
        { s with committed := jsTrim (s.committed ++ " " ++ (buildTranscripts results).1),
                 interim := "" } with ⟨ha, hb⟩ | ⟨ha, hb⟩
      · exact .inl ⟨by simp [segList, ha], hb⟩
      · exact .inr
          ⟨jsTrim (jsTrim (s.committed ++ " " ++ (buildTranscripts results).1) ++ " " ++ ""),
            by simp [segList, ha], hb⟩
    · exact .inl ⟨rfl, rfl⟩
    · exact .inl ⟨rfl, rfl⟩
    · exact .inl ⟨rfl, rfl⟩
  | pauseTimer =>
    simp only [stepSR]
    split_ifs with h1
    · rcases flushBuffer_seq sourceLang s with ⟨ha, hb⟩ | ⟨ha, hb⟩
      · exact .inl ⟨by simp [segList, ha], hb⟩
      · exact .inr ⟨jsTrim (s.committed ++ " " ++ s.interim), by simp [segList, ha], hb⟩
    · exact .inl ⟨rfl, rfl⟩
  | streamingTimer =>
    simp only [stepSR]
    split_ifs with h1
    · rcases flushBuffer_seq sourceLang s with ⟨ha, hb⟩ | ⟨ha, hb⟩
      · exact .inl ⟨by simp [segList, ha], hb⟩
      · exact .inr ⟨jsTrim (s.committed ++ " " ++ s.interim), by simp [segList, ha], hb⟩
    · exact .inl ⟨rfl, rfl⟩
  | errorEvt err =>
    simp only [stepSR]
    split_ifs with h1
    · rcases flushBuffer_seq sourceLang s with ⟨ha, hb⟩ | ⟨ha, hb⟩
      · exact .inl ⟨by simp [segList, ha], hb⟩
      · exact .inr ⟨jsTrim (s.committed ++ " " ++ s.interim), by simp [segList, ha], hb⟩
    · rcases flushBuffer_seq sourceLang s with ⟨ha, hb⟩ | ⟨ha, hb⟩
      · exact .inl ⟨by simp [segList, ha], hb⟩
      · exact .inr ⟨jsTrim (s.committed ++ " " ++ s.interim), by simp [segList, ha], hb⟩
  | endEvt =>
    simp only [stepSR]
    split_ifs with h1
    · exact .inl ⟨rfl, rfl⟩
    · rcases flushBuffer_seq sourceLang
        { s with statusText := "Listening stopped. Click to start." } with
        ⟨ha, hb⟩ | ⟨ha, hb⟩
      · exact .inl ⟨by simp [segList, ha], hb⟩
      · exact .inr ⟨jsTrim (s.committed ++ " " ++ s.interim), by simp [segList, ha], hb⟩
  | startEvt => exact .inl ⟨rfl, rfl⟩
  | toggle =>
    simp only [stepSR]
    split_ifs with h1
    · rcases flushBuffer_seq sourceLang { s with isListening := false } with
        ⟨ha, hb⟩ | ⟨ha, hb⟩
      · exact .inl ⟨by simp [segList, ha], hb⟩
      · exact .inr ⟨jsTrim (s.committed ++ " " ++ s.interim), by simp [segList, ha], hb⟩
    · exact .inl ⟨rfl, rfl⟩

/-- Over a whole run, the emitted segments carry consecutive sequence
numbers starting right after the initial counter value, and the counter
advances by exactly the number of emissions. -/
theorem runSR_seq (sourceLang : String) (evs : List SREvent) (s : SRState) :
    (runSR sourceLang s evs).2.map Segment.sequence =
      List.range' (s.seq + 1) (runSR sourceLang s evs).2.length
    ∧ (runSR sourceLang s evs).1.seq = s.seq + (runSR sourceLang s evs).2.length := by
  induction evs generalizing s with
  | nil => exact ⟨rfl, rfl⟩
  | cons e t ih =>
    have hrest := ih (stepSR sourceLang s e).state
    rcases stepSR_seq sourceLang s e with ⟨h1, h2⟩ | ⟨u, h1, h2⟩
    · rw [h2] at hrest
      simp only [runSR, h1, List.nil_append]
      exact hrest
    · rw [h2] at hrest
      simp only [runSR, h1, List.cons_append, List.nil_append, List.length_cons,
        List.map_cons]
      refine ⟨?_, ?_⟩
      · rw [hrest.1, List.range'_succ]
      · rw [hrest.2]
        omega

/-- C3: in any session starting from the initial sequence counter 0, the
segments emitted by the successive flushes carry exactly the sequence
numbers 1, 2, …, n in order: each emitting flush assigns one more than
the previously assigned number, so the emitted numbers are strictly
increasing, duplicate-free and gap-free. -/
theorem flush_sequences_consecutive_c3 (sourceLang : String) (evs : List SREvent)
    (s : SRState) (h : s.seq = 0) :
    (runSR sourceLang s evs).2.map Segment.sequence =
      List.range' 1 (runSR sourceLang s evs).2.length := by
  have hr := (runSR_seq sourceLang evs s).1
  rw [h] at hr
  simpa using hr

/-- Witness for C3 on a concrete three-event session emitting two
segments. -/
theorem flush_sequences_consecutive_c3_witness :
    (runSR "en-US" ⟨"", "", false, false, 0, "", false, "", ""⟩
        [.startEvt, .result [("hello", true)], .result [("world", true)]]).2.map
        Segment.sequence =
      List.range' 1
        (runSR "en-US" ⟨"", "", false, false, 0, "", false, "", ""⟩
          [.startEvt, .result [("hello", true)], .result [("world", true)]]).2.length :=
  flush_sequences_consecutive_c3 "en-US"
    [.startEvt, .result [("hello", true)], .result [("world", true)]]
    ⟨"", "", false, false, 0, "", false, "", ""⟩ rfl

theorem flushBuffer_isListening (sourceLang : String) (s : SRState) :
    (flushBuffer sourceLang s).state.isListening = s.isListening := by
  simp only [flushBuffer]
  split_ifs <;> rfl

theorem flushBuffer_logs (sourceLang : String) (s : SRState) :
    (flushBuffer sourceLang s).logs = []
    ∨ ∃ t, (flushBuffer sourceLang s).logs = [⟨"input", t, "Spoken in " ++ sourceLang⟩] := by
  simp only [flushBuffer]
  split_ifs
  · exact .inl rfl
  · exact .inl rfl
  · exact .inr ⟨_, rfl⟩

/-- C6 counterexample: with text buffered and both timers armed, a
"no-speech" recognizer error is not ignored: the handler flushes the
buffer, emitting a segment, and clears the streaming interval, so
neither "no flush" nor "no timer change" holds. -/
theorem onerror_no_speech_cex_c6 :
    (stepSR "en-US" ⟨"hello", "", true, true, 0, "", true, "x", "y"⟩
        (.errorEvt "no-speech")).emitted = [⟨1, "hello"⟩]
    ∧ (stepSR "en-US" ⟨"hello", "", true, true, 0, "", true, "x", "y"⟩
        (.errorEvt "no-speech")).state.streamingOn = false
    ∧ (⟨"hello", "", true, true, 0, "", true, "x", "y"⟩ : SRState).streamingOn = true :=
  ⟨rfl, rfl, rfl⟩

/-- C6 amended: on a "no speech detected" recognizer error the handler is
not a pure no-op — it still forces a flush and stops the streaming
interval — but it keeps the session alive: the listening flag is
unchanged, recognition is not stopped and no error entry is logged.
Only for recognizer errors other than "no-speech" does the handler
additionally stop recognition, clear the listening flag and surface the
session-fatal error (the flush happening for those too). -/
theorem onerror_behavior_c6 (sourceLang : String) (s : SRState) :
    ((stepSR sourceLang s (.errorEvt "no-speech")).state =
        { (flushBuffer sourceLang s).state with streamingOn := false }
      ∧ (stepSR sourceLang s (.errorEvt "no-speech")).state.isListening = s.isListening
      ∧ (stepSR sourceLang s (.errorEvt "no-speech")).stopRequested = false
      ∧ ∀ l ∈ (stepSR sourceLang s (.errorEvt "no-speech")).logs, l.type ≠ "error")
    ∧ ∀ err, err ≠ "no-speech" →
        (stepSR sourceLang s (.errorEvt err)).state.isListening = false
        ∧ (stepSR sourceLang s (.errorEvt err)).stopRequested = true
        ∧ (stepSR sourceLang s (.errorEvt err)).emitted =
            segList (flushBuffer sourceLang s).emitted
        ∧ ⟨"error", "Microphone Error: " ++ err ++ ". Please check permissions.", ""⟩ ∈
            (stepSR sourceLang s (.errorEvt err)).logs := by
  constructor
  · refine ⟨?_, ?_, ?_, ?_⟩
    · simp [stepSR]
    · simp only [stepSR]
      rw [if_neg (by simp)]
      exact flushBuffer_isListening sourceLang s
    · simp [stepSR]
    · intro l hl
      simp only [stepSR] at hl
      rw [if_neg (by simp)] at hl
      rcases flushBuffer_logs sourceLang s with h | ⟨t, h⟩
      · rw [h] at hl
        cases hl
      · rw [h] at hl
        simp only [List.mem_singleton] at hl
        rw [hl]
        simp
  · intro err herr
    refine ⟨?_, ?_, ?_, ?_⟩
    · simp only [stepSR]
      rw [if_pos herr]
    · simp only [stepSR]
      rw [if_pos herr]
    · simp only [stepSR]
      rw [if_pos herr]
    · simp only [stepSR]
      rw [if_pos herr]
      simp

/-- Witness for C6 at a concrete fatal error. -/
theorem onerror_behavior_c6_witness :
    ("network" : String) ≠ "no-speech"
    ∧ ((stepSR "en-US" ⟨"hi", "", true, true, 0, "", true, "x", "y"⟩
          (.errorEvt "network")).state.isListening = false
        ∧ (stepSR "en-US" ⟨"hi", "", true, true, 0, "", true, "x", "y"⟩
            (.errorEvt "network")).stopRequested = true
        ∧ (stepSR "en-US" ⟨"hi", "", true, true, 0, "", true, "x", "y"⟩
            (.errorEvt "network")).emitted =
          segList (flushBuffer "en-US" ⟨"hi", "", true, true, 0, "", true, "x", "y"⟩).emitted
        ∧ ⟨"error", "Microphone Error: " ++ "network" ++ ". Please check permissions.", ""⟩ ∈
            (stepSR "en-US" ⟨"hi", "", true, true, 0, "", true, "x", "y"⟩
              (.errorEvt "network")).logs) :=
  ⟨by decide,
    (onerror_behavior_c6 "en-US" ⟨"hi", "", true, true, 0, "", true, "x", "y"⟩).2 "network"
      (by decide)⟩

/-- C7 counterexample: with committed text empty and pending interim
"foo", a final fragment "bar" does trigger an immediate flush, but the
emitted text is "bar" — the committed text plus the final transcript —
while the trimmed concatenation of the committed text and the pending
interim is "foo": the pending interim is discarded, not flushed. -/
theorem onresult_final_cex_c7 :
    (stepSR "en-US" ⟨"", "foo", false, false, 0, "", true, "x", "y"⟩
        (.result [("bar", true)])).emitted = [⟨1, "bar"⟩]
    ∧ jsTrim ((⟨"", "foo", false, false, 0, "", true, "x", "y"⟩ : SRState).committed
        ++ " " ++ (⟨"", "foo", false, false, 0, "", true, "x", "y"⟩ : SRState).interim) = "foo"
    ∧ ("bar" : String) ≠ "foo" :=
  ⟨rfl, rfl, by decide⟩

/-- C7 amended: whenever a final fragment arrives — whatever the timer
states and whatever interim is pending — the handler appends the final
transcript to the committed text, discards the pending interim, and
invokes `flushBuffer` immediately; every segment that flush emits
carries `trim(committed + " " + finalTranscript)` (the pending interim
does not contribute), and when that text differs from the last emitted
text the flush does emit it with the next sequence number. -/
theorem onresult_final_flush_c7 (sourceLang : String) (s : SRState)
    (results : List (String × Bool))
    (hfin : 0 < (jsTrim (buildTranscripts results).1).length) :
    (stepSR sourceLang s (.result results) =
      ⟨(flushBuffer sourceLang
          { s with committed := jsTrim (s.committed ++ " " ++ (buildTranscripts results).1),
                   interim := "" }).state,
        segList (flushBuffer sourceLang
          { s with committed := jsTrim (s.committed ++ " " ++ (buildTranscripts results).1),
                   interim := "" }).emitted,
        (flushBuffer sourceLang
          { s with committed := jsTrim (s.committed ++ " " ++ (buildTranscripts results).1),
                   interim := "" }).logs,
        false⟩)
    ∧ (∀ seg ∈ (stepSR sourceLang s (.result results)).emitted,
        seg.text = jsTrim (s.committed ++ " " ++ (buildTranscripts results).1))
    ∧ (jsTrim (s.committed ++ " " ++ (buildTranscripts results).1) ≠ s.lastSent →
        (stepSR sourceLang s (.result results)).emitted =
          [⟨s.seq + 1, jsTrim (s.committed ++ " " ++ (buildTranscripts results).1)⟩]) := by
  have hkey : jsTrim (jsTrim (s.committed ++ " " ++ (buildTranscripts results).1) ++ " ") =
      jsTrim (s.committed ++ " " ++ (buildTranscripts results).1) :=
    jsTrim_append_space _
  have hfd : trimChars (buildTranscripts results).1.data ≠ [] := by
    intro h0
    have hlen : (jsTrim (buildTranscripts results).1).length = 0 := by
      show (trimChars (buildTranscripts results).1.data).length = 0
      rw [h0]
      rfl
    omega
  obtain ⟨a, haIn, haWs⟩ := trimChars_ne_nil_exists _ hfd
  have haInZ : a ∈ (s.committed ++ " " ++ (buildTranscripts results).1).data := by
    rw [String.data_append]
    exact List.mem_append_right _ haIn
  have hcne : jsTrim (s.committed ++ " " ++ (buildTranscripts results).1) ≠ "" := by
    intro h0
    have hdata : trimChars (s.committed ++ " " ++ (buildTranscripts results).1).data = [] := by
      have := congrArg String.data h0
      simpa [jsTrim] using this
    exact trimChars_ne_nil _ a haInZ haWs hdata
  refine ⟨?_, ?_, ?_⟩
  · simp only [stepSR, if_pos hfin]
  · intro seg hseg
    simp only [stepSR, if_pos hfin] at hseg
    rcases flushBuffer_seq sourceLang
        { s with committed := jsTrim (s.committed ++ " " ++ (buildTranscripts results).1),
                 interim := "" } with ⟨ha, _⟩ | ⟨ha, _⟩
    · rw [ha] at hseg
      cases hseg
    · rw [ha] at hseg
      simp only [segList, List.mem_singleton] at hseg
      rw [hseg]
      show jsTrim (jsTrim (s.committed ++ " " ++ (buildTranscripts results).1) ++ " " ++ "") = _
      rw [String.append_empty]
      exact hkey
  · intro hne
    simp only [stepSR, if_pos hfin]
    simp only [flushBuffer, String.append_empty, hkey]
    rw [if_neg hcne, if_neg (fun hcon => hne hcon.2.symm)]
    rfl

/-- Witness for C7 at a concrete final fragment with a pending interim. -/
theorem onresult_final_flush_c7_witness :
    0 < (jsTrim (buildTranscripts [("bar", true)]).1).length
    ∧ (stepSR "en-US" ⟨"", "foo", false, false, 0, "", true, "x", "y"⟩
          (.result [("bar", true)])).emitted =
        [⟨(⟨"", "foo", false, false, 0, "", true, "x", "y"⟩ : SRState).seq + 1,
          jsTrim ((⟨"", "foo", false, false, 0, "", true, "x", "y"⟩ : SRState).committed
            ++ " " ++ (buildTranscripts [("bar", true)]).1)⟩] :=
  ⟨by decide,
    (onresult_final_flush_c7 "en-US" ⟨"", "foo", false, false, 0, "", true, "x", "y"⟩
      [("bar", true)] (by decide)).2.2 (by decide)⟩

end RealtimeTranslator
